import Mathlib

/-!
Shallow embedding of `src/financial_analysis.py` (class `FinancialAnalyzer`).

Numbers are modelled as exact rationals.  The only places where the Python
code can produce a non-finite float are divisions performed with pandas
(which yield `inf`/`-inf`/`NaN` instead of raising) and the explicit
`float('inf')` sentinel of `calculate_operating_leverage`; those results are
modelled by the four-point extension `PyF` of `ℚ` below, with the IEEE-style
propagation rules pandas uses.  All other arithmetic in the source is total
and guarded, and stays in `ℚ`.
-/

/-- A pandas/NumPy floating value: finite rational, `inf`, `-inf`, or `NaN`.
Used exactly where the source can produce a non-finite float. -/
inductive PyF where
  | fin (q : ℚ)
  | pinf
  | ninf
  | nan
deriving DecidableEq, Repr

/-- Division as performed by pandas on float columns: division by zero yields
`inf` / `-inf` / `NaN` (for `0/0`) instead of raising. -/
def qdivF (x y : ℚ) : PyF :=
  if y = 0 then
    if 0 < x then .pinf else if x < 0 then .ninf else .nan
  else .fin (x / y)

/-- Multiplication of a pandas float by the positive constant `100`
(the `* 100` steps of the source). -/
def PyF.mul100 : PyF → PyF
  | .fin q => .fin (q * 100)
  | .pinf => .pinf
  | .ninf => .ninf
  | .nan => .nan

/-- `Series.fillna(0)`: replaces `NaN` by `0`; infinities are NOT replaced. -/
def PyF.fillna0 : PyF → PyF
  | .nan => .fin 0
  | x => x

/-- IEEE-style addition on pandas floats (`inf + -inf = NaN`, `NaN` absorbs). -/
def PyF.add : PyF → PyF → PyF
  | .nan, _ => .nan
  | _, .nan => .nan
  | .pinf, .ninf => .nan
  | .ninf, .pinf => .nan
  | .pinf, _ => .pinf
  | _, .pinf => .pinf
  | .ninf, _ => .ninf
  | _, .ninf => .ninf
  | .fin a, .fin b => .fin (a + b)

/-- IEEE-style subtraction on pandas floats. -/
def PyF.sub : PyF → PyF → PyF
  | .nan, _ => .nan
  | _, .nan => .nan
  | .pinf, .pinf => .nan
  | .ninf, .ninf => .nan
  | .pinf, _ => .pinf
  | .ninf, _ => .ninf
  | .fin _, .pinf => .ninf
  | .fin _, .ninf => .pinf
  | .fin a, .fin b => .fin (a - b)

/-- Division of a pandas float by a (positive) element count, for `mean`.
`n = 0` gives `NaN` (pandas mean of an empty selection). -/
def PyF.divNat : PyF → Nat → PyF
  | _, 0 => .nan
  | .nan, _ => .nan
  | .pinf, _ => .pinf
  | .ninf, _ => .ninf
  | .fin q, n => .fin (q / (n : ℚ))

/-- `Series.mean()`: sum of the values divided by their count. -/
def PyF.mean (l : List PyF) : PyF :=
  (l.foldl PyF.add (.fin 0)).divNat l.length

/-- IEEE-style strict comparison on pandas floats: any comparison with `NaN`
is false; `-inf < finite < inf`. -/
def PyF.ltB : PyF → PyF → Bool
  | .ninf, .fin _ => true
  | .ninf, .pinf => true
  | .fin _, .pinf => true
  | .fin a, .fin b => decide (a < b)
  | _, _ => false

/-- Non-strict comparison used for tie counting in `rank`:
strictly-less or (structurally) equal. -/
def PyF.leB (a b : PyF) : Bool := a.ltB b || decide (a = b)

/-- An input product record: the four columns the presentation layer feeds
to `FinancialAnalyzer.__init__`. -/
structure Product where
  name : String
  price : ℚ
  cost : ℚ
  quantity : ℚ
deriving DecidableEq, Repr

/-- A row of the analyzer's internal DataFrame `self.df` after
`_calculate_metrics`: the input columns plus the five derived columns. -/
structure Row where
  name : String
  price : ℚ
  cost : ℚ
  quantity : ℚ
  contribution_margin : ℚ
  contribution_margin_percent : PyF
  total_revenue : ℚ
  total_variable_cost : ℚ
  total_contribution : ℚ
deriving DecidableEq, Repr

/-- `_calculate_metrics` (lines 27-36), per row:
`contribution_margin = price - cost`;
`contribution_margin_percent = ((contribution_margin / price) * 100).fillna(0)`;
`total_revenue = price * quantity`; `total_variable_cost = cost * quantity`;
`total_contribution = contribution_margin * quantity`. -/
def deriveRow (p : Product) : Row :=
  { name := p.name
    price := p.price
    cost := p.cost
    quantity := p.quantity
    contribution_margin := p.price - p.cost
    contribution_margin_percent := ((qdivF (p.price - p.cost) p.price).mul100).fillna0
    total_revenue := p.price * p.quantity
    total_variable_cost := p.cost * p.quantity
    total_contribution := (p.price - p.cost) * p.quantity }

/-- The analyzer state: the derived table (`self.df`) and `self.fixed_costs`.
(The constructor also stores the raw input list as `self.products_data`, but
no method ever reads it, so it is omitted.) -/
structure FinancialAnalyzer where
  df : List Row
  fixed_costs : ℚ
deriving DecidableEq, Repr

/-- `FinancialAnalyzer.__init__` (lines 14-25): builds the DataFrame and
derives the metric columns.  The source performs no input validation, so
construction is total. -/
def FinancialAnalyzer.mk' (products_data : List Product) (fixed_costs : ℚ) :
    FinancialAnalyzer :=
  { df := products_data.map deriveRow, fixed_costs := fixed_costs }

/-- Result of `calculate_breakeven_analysis` in the non-empty case. -/
structure BreakevenResult where
  breakeven_units : ℚ
  breakeven_revenue : ℚ
  safety_margin_units : ℚ
  safety_margin_percent : ℚ
  safety_margin_revenue : ℚ
  weighted_avg_contribution_margin : ℚ
  weighted_avg_price : ℚ
deriving DecidableEq, Repr

/-- Body of `calculate_breakeven_analysis` (lines 69-98), reached only when
the DataFrame is non-empty.  Every division in the source is guarded by a
strict positivity test, so all fields are finite rationals. -/
def breakevenCore (a : FinancialAnalyzer) : BreakevenResult :=
  let total_contribution := (a.df.map (fun r => r.total_contribution)).sum
  let total_quantity := (a.df.map (fun r => r.quantity)).sum
  let total_revenue := (a.df.map (fun r => r.total_revenue)).sum
  let weighted_avg_contribution_margin :=
    if 0 < total_quantity then total_contribution / total_quantity else 0
  let weighted_avg_price :=
    if 0 < total_quantity then total_revenue / total_quantity else 0
  let breakeven_units :=
    if 0 < weighted_avg_contribution_margin then
      a.fixed_costs / weighted_avg_contribution_margin
    else 0
  let breakeven_revenue := breakeven_units * weighted_avg_price
  let safety_margin_units := total_quantity - breakeven_units
  let safety_margin_percent :=
    if 0 < total_quantity then safety_margin_units / total_quantity * 100 else 0
  let safety_margin_revenue := total_revenue - breakeven_revenue
  { breakeven_units := breakeven_units
    breakeven_revenue := breakeven_revenue
    safety_margin_units := safety_margin_units
    safety_margin_percent := safety_margin_percent
    safety_margin_revenue := safety_margin_revenue
    weighted_avg_contribution_margin := weighted_avg_contribution_margin
    weighted_avg_price := weighted_avg_price }

/-- `calculate_breakeven_analysis` (lines 59-98): `{}` (modelled as `none`)
for an empty DataFrame, otherwise the computed dictionary. -/
def FinancialAnalyzer.calculate_breakeven_analysis (a : FinancialAnalyzer) :
    Option BreakevenResult :=
  if a.df.isEmpty then none else some (breakevenCore a)

/-- `calculate_operating_leverage` (lines 100-116): `0` for an empty
DataFrame; `float('inf')` when net profit is exactly zero; otherwise
`total_contribution / net_profit`. -/
def FinancialAnalyzer.calculate_operating_leverage (a : FinancialAnalyzer) : PyF :=
  if a.df.isEmpty then .fin 0
  else
    let total_contribution := (a.df.map (fun r => r.total_contribution)).sum
    let net_profit := total_contribution - a.fixed_costs
    if net_profit = 0 then .pinf else .fin (total_contribution / net_profit)

/-- Result of `get_cost_volume_profit_analysis` in the non-empty case.  The
source merges the break-even dictionary into this one with `**`; since the
DataFrame is non-empty on this path, that dictionary is always the full
`BreakevenResult`, modelled as a nested field. -/
structure CVPResult where
  total_revenue : ℚ
  total_variable_cost : ℚ
  total_contribution : ℚ
  fixed_costs : ℚ
  net_profit : ℚ
  contribution_margin_ratio : ℚ
  variable_cost_ratio : ℚ
  operating_leverage : PyF
  breakeven : BreakevenResult
deriving DecidableEq, Repr

/-- Body of `get_cost_volume_profit_analysis` (lines 128-152), reached only
when the DataFrame is non-empty. -/
def cvpCore (a : FinancialAnalyzer) : CVPResult :=
  let total_revenue := (a.df.map (fun r => r.total_revenue)).sum
  let total_variable_cost := (a.df.map (fun r => r.total_variable_cost)).sum
  let total_contribution := (a.df.map (fun r => r.total_contribution)).sum
  { total_revenue := total_revenue
    total_variable_cost := total_variable_cost
    total_contribution := total_contribution
    fixed_costs := a.fixed_costs
    net_profit := total_contribution - a.fixed_costs
    contribution_margin_ratio :=
      if 0 < total_revenue then total_contribution / total_revenue * 100 else 0
    variable_cost_ratio :=
      if 0 < total_revenue then total_variable_cost / total_revenue * 100 else 0
    operating_leverage := a.calculate_operating_leverage
    breakeven := breakevenCore a }

/-- `get_cost_volume_profit_analysis` (lines 118-152): `{}` (modelled as
`none`) for an empty DataFrame, otherwise the computed dictionary. -/
def FinancialAnalyzer.get_cost_volume_profit_analysis (a : FinancialAnalyzer) :
    Option CVPResult :=
  if a.df.isEmpty then none else some (cvpCore a)

/-- Number of entries of `vs` strictly greater than `v`
(descending rank: these precede `v`'s tie group). -/
def cntGT (v : PyF) (vs : List PyF) : Nat := vs.countP (fun w => v.ltB w)

/-- Number of entries of `vs` greater than or equal to `v`
(descending rank: position of the last element of `v`'s tie group). -/
def cntGE (v : PyF) (vs : List PyF) : Nat := vs.countP (fun w => v.leB w)

/-- `Series.rank(ascending=False)` with pandas' default `method='average'`:
the rank of a value is the arithmetic mean of the first and last 1-based
ordinal positions of its tie group in descending order, i.e.
`((cntGT + 1) + cntGE) / 2`.  Tied values share one (possibly fractional)
rank. -/
def rankOf (v : PyF) (vs : List PyF) : ℚ :=
  ((cntGT v vs : ℚ) + (cntGE v vs : ℚ) + 1) / 2

/-- A row of the DataFrame returned by `get_contribution_margin_analysis`:
the derived table plus rank and participation columns. -/
structure ARow extends Row where
  contribution_rank : ℚ
  revenue_participation : PyF
  contribution_participation : PyF
deriving DecidableEq, Repr

/-- `get_contribution_margin_analysis` (lines 38-57): empty DataFrame for an
empty analyzer; otherwise a copy of the table with `contribution_rank`
(pandas average rank of `contribution_margin_percent`, descending) and the
two participation columns (pandas division, unguarded: a zero column total
yields non-finite values). -/
def FinancialAnalyzer.get_contribution_margin_analysis (a : FinancialAnalyzer) :
    List ARow :=
  if a.df.isEmpty then []
  else
    let percents := a.df.map (fun r => r.contribution_margin_percent)
    let sumRevenue := (a.df.map (fun r => r.total_revenue)).sum
    let sumContribution := (a.df.map (fun r => r.total_contribution)).sum
    a.df.map (fun r =>
      { toRow := r
        contribution_rank := rankOf r.contribution_margin_percent percents
        revenue_participation := (qdivF r.total_revenue sumRevenue).mul100
        contribution_participation :=
          (qdivF r.total_contribution sumContribution).mul100 })

/-- Projection of a DataFrame row back to its four input columns, as done by
`df.to_dict('records')` feeding `FinancialAnalyzer.__init__` (which then
recomputes every derived column from these four). -/
def Row.toProduct (r : Row) : Product :=
  { name := r.name, price := r.price, cost := r.cost, quantity := r.quantity }

/-- The in-place column updates `simulate_price_changes` applies to the rows
of the copied frame `df_sim` that match the product name (lines 177-185).
Note the percent recomputation here uses no `fillna`; these derived values
are dead anyway, because the fresh analyzer recomputes all derived columns
from `price`/`cost`/`quantity`. -/
def simUpdateRow (r : Row) (new_price : ℚ) : Row :=
  { r with
    price := new_price
    contribution_margin := new_price - r.cost
    contribution_margin_percent := (qdivF (new_price - r.cost) new_price).mul100
    total_revenue := new_price * r.quantity
    total_contribution := (new_price - r.cost) * r.quantity }

/-- Output record of `simulate_price_changes` in the successful case. -/
structure SimOut where
  current_profit : ℚ
  new_profit : ℚ
  profit_change : ℚ
  current_contribution_ratio : ℚ
  new_contribution_ratio : ℚ
deriving DecidableEq, Repr

/-- The three possible shapes of the dictionary `simulate_price_changes`
returns: `{}`, `{'error': ...}`, or the impact analysis. -/
inductive SimResult where
  | empty
  | notFound
  | ok (out : SimOut)
deriving DecidableEq, Repr

/-- `simulate_price_changes` (lines 154-197), with the analyzer state
threaded explicitly: the source writes only to the copy `df_sim` and to the
fresh analyzer built from it, never to `self`, so the state passed out is
the state passed in, in every branch.  On the successful path both CVP
dictionaries are non-empty, so the `.get(..., 0)` defaults never fire and
the fields are read directly. -/
def FinancialAnalyzer.simulate_price_changes (a : FinancialAnalyzer)
    (product_name : String) (new_price : ℚ) : FinancialAnalyzer × SimResult :=
  if a.df.isEmpty then (a, .empty)
  else if (a.df.filter (fun r => r.name == product_name)).isEmpty then
    (a, .notFound)
  else
    let current_analysis := cvpCore a
    let df_sim := a.df.map (fun r =>
      if r.name == product_name then simUpdateRow r new_price else r)
    let sim_analyzer :=
      FinancialAnalyzer.mk' (df_sim.map Row.toProduct) a.fixed_costs
    let new_analysis := cvpCore sim_analyzer
    (a, .ok
      { current_profit := current_analysis.net_profit
        new_profit := new_analysis.net_profit
        profit_change := new_analysis.net_profit - current_analysis.net_profit
        current_contribution_ratio := current_analysis.contribution_margin_ratio
        new_contribution_ratio := new_analysis.contribution_margin_ratio })

/-- Stable insertion into a list already sorted by `prec` (read `prec y x` as
"y must stay ahead of x"): `x` is placed before the first element that does
not strictly precede it, so earlier input elements win ties. -/
def insertStable (prec : ARow → ARow → Bool) (x : ARow) :
    List ARow → List ARow
  | [] => [x]
  | y :: ys => if prec y x then y :: insertStable prec x ys else x :: y :: ys

/-- Stable sort by the strict precedence `prec`; models the ordering used by
pandas `nlargest` / `nsmallest` with their default `keep='first'`. -/
def stableSortBy (prec : ARow → ARow → Bool) : List ARow → List ARow
  | [] => []
  | x :: xs => insertStable prec x (stableSortBy prec xs)

/-- One entry of the product-mix dictionaries: the three projected columns. -/
structure MixEntry where
  name : String
  contribution_margin_percent : PyF
  total_contribution : ℚ
deriving DecidableEq, Repr

/-- Result of `analyze_product_mix_optimization` in the non-empty case. -/
structure MixResult where
  high_margin_products : List MixEntry
  low_margin_products : List MixEntry
  high_contribution_products : List MixEntry
deriving DecidableEq, Repr

/-- Projection used by `analyze_product_mix_optimization`. -/
def ARow.toMixEntry (r : ARow) : MixEntry :=
  { name := r.name
    contribution_margin_percent := r.contribution_margin_percent
    total_contribution := r.total_contribution }

/-- `analyze_product_mix_optimization` (lines 199-224): `{}` (modelled as
`none`) for an empty analyzer; otherwise the top-3 / bottom-3 selections of
`nlargest` / `nsmallest` (descending resp. ascending stable order, first
occurrence kept on ties). -/
def FinancialAnalyzer.analyze_product_mix_optimization (a : FinancialAnalyzer) :
    Option MixResult :=
  if a.df.isEmpty then none
  else
    let df_analysis := a.get_contribution_margin_analysis
    let descMargin := stableSortBy
      (fun x y => PyF.ltB y.contribution_margin_percent x.contribution_margin_percent)
      df_analysis
    let ascMargin := stableSortBy
      (fun x y => PyF.ltB x.contribution_margin_percent y.contribution_margin_percent)
      df_analysis
    let descContribution := stableSortBy
      (fun x y => decide (y.total_contribution < x.total_contribution))
      df_analysis
    some
      { high_margin_products := (descMargin.take 3).map ARow.toMixEntry
        low_margin_products := (ascMargin.take 3).map ARow.toMixEntry
        high_contribution_products := (descContribution.take 3).map ARow.toMixEntry }

/-- Output record of `calculate_combo_analysis` in the successful case. -/
structure ComboOut where
  products : List String
  original_price : ℚ
  discounted_price : ℚ
  total_cost : ℚ
  combo_margin : ℚ
  combo_margin_percent : ℚ
  avg_individual_margin_percent : PyF
  margin_impact : PyF
  discount_applied : ℚ
  viability : String
deriving DecidableEq, Repr

/-- The three possible shapes of the dictionary `calculate_combo_analysis`
returns: `{}`, `{'error': ...}`, or the combo analysis. -/
inductive ComboResult where
  | empty
  | notFound
  | ok (out : ComboOut)
deriving DecidableEq, Repr

/-- `calculate_combo_analysis` (lines 226-266).  The selection keeps every
row whose name occurs in `product_names`; requested names matching no row
are silently ignored by all figures, yet the `products` field echoes the
full requested list.  `combo_margin_percent` is guarded by
`discounted_price > 0`; the mean of the individual percent column uses
pandas float semantics. -/
def FinancialAnalyzer.calculate_combo_analysis (a : FinancialAnalyzer)
    (product_names : List String) (discount_percent : ℚ) : ComboResult :=
  if a.df.isEmpty then .empty
  else
    let combo_products := a.df.filter (fun r => product_names.contains r.name)
    if combo_products.isEmpty then .notFound
    else
      let combo_original_price := (combo_products.map (fun r => r.price)).sum
      let combo_discounted_price :=
        combo_original_price * (1 - discount_percent / 100)
      let combo_total_cost := (combo_products.map (fun r => r.cost)).sum
      let combo_margin := combo_discounted_price - combo_total_cost
      let combo_margin_percent :=
        if 0 < combo_discounted_price then
          combo_margin / combo_discounted_price * 100
        else 0
      let avg_individual_margin :=
        PyF.mean (combo_products.map (fun r => r.contribution_margin_percent))
      .ok
        { products := product_names
          original_price := combo_original_price
          discounted_price := combo_discounted_price
          total_cost := combo_total_cost
          combo_margin := combo_margin
          combo_margin_percent := combo_margin_percent
          avg_individual_margin_percent := avg_individual_margin
          margin_impact := (PyF.fin combo_margin_percent).sub avg_individual_margin
          discount_applied := discount_percent
          viability :=
            if 15 < combo_margin_percent then "Viável"
            else if 5 < combo_margin_percent then "Revisar"
            else "Não recomendado" }

/-- Total quantity `Σ quantity` of a product list, stated directly on the
raw input records. -/
def totalQuantityOf (ps : List Product) : ℚ :=
  (ps.map (fun p => p.quantity)).sum

/-- Total revenue `Σ price * quantity` of a product list, stated directly on
the raw input records. -/
def totalRevenueOf (ps : List Product) : ℚ :=
  (ps.map (fun p => p.price * p.quantity)).sum

/-- Total variable cost `Σ cost * quantity` of a product list, stated
directly on the raw input records. -/
def totalVariableCostOf (ps : List Product) : ℚ :=
  (ps.map (fun p => p.cost * p.quantity)).sum

/-- Total contribution `Σ (price - cost) * quantity` of a product list,
stated directly on the raw input records. -/
def totalContributionOf (ps : List Product) : ℚ :=
  (ps.map (fun p => (p.price - p.cost) * p.quantity)).sum

lemma mk'_df (ps : List Product) (fc : ℚ) :
    (FinancialAnalyzer.mk' ps fc).df = ps.map deriveRow := rfl

lemma mk'_fixed_costs (ps : List Product) (fc : ℚ) :
    (FinancialAnalyzer.mk' ps fc).fixed_costs = fc := rfl

lemma mk'_df_isEmpty_eq_false (ps : List Product) (fc : ℚ) (hne : ps ≠ []) :
    (FinancialAnalyzer.mk' ps fc).df.isEmpty = false := by
  cases ps with
  | nil => exact absurd rfl hne
  | cons p t => rfl

lemma df_sum_total_contribution (ps : List Product) :
    ((ps.map deriveRow).map (fun r => r.total_contribution)).sum =
      totalContributionOf ps := by
  rw [List.map_map]; rfl

lemma df_sum_total_revenue (ps : List Product) :
    ((ps.map deriveRow).map (fun r => r.total_revenue)).sum =
      totalRevenueOf ps := by
  rw [List.map_map]; rfl

lemma df_sum_total_variable_cost (ps : List Product) :
    ((ps.map deriveRow).map (fun r => r.total_variable_cost)).sum =
      totalVariableCostOf ps := by
  rw [List.map_map]; rfl

lemma df_sum_quantity (ps : List Product) :
    ((ps.map deriveRow).map (fun r => r.quantity)).sum = totalQuantityOf ps := by
  rw [List.map_map]; rfl

lemma totalContributionOf_eq_sub (ps : List Product) :
    totalContributionOf ps = totalRevenueOf ps - totalVariableCostOf ps := by
  induction ps with
  | nil => simp [totalContributionOf, totalRevenueOf, totalVariableCostOf]
  | cons p t ih =>
      simp only [totalContributionOf, totalRevenueOf, totalVariableCostOf,
        List.map_cons, List.sum_cons] at *
      rw [ih]; ring

lemma totalQuantityOf_nonneg (ps : List Product)
    (hq : ∀ p ∈ ps, 0 ≤ p.quantity) : 0 ≤ totalQuantityOf ps :=
  List.sum_nonneg (by
    intro x hx
    rcases List.mem_map.mp hx with ⟨p, hp, rfl⟩
    exact hq p hp)

/-- C5: for every analyzer with a non-empty product list, the sum of the
derived `total_contribution` column equals the sum of `total_revenue` minus
the sum of `total_variable_cost`, exactly (rational arithmetic); the CVP
dictionary built from these sums satisfies the same identity. -/
theorem contribution_sum_identity (ps : List Product) (fc : ℚ) (hne : ps ≠ []) :
    ((FinancialAnalyzer.mk' ps fc).df.map (fun r => r.total_contribution)).sum =
      ((FinancialAnalyzer.mk' ps fc).df.map (fun r => r.total_revenue)).sum -
      ((FinancialAnalyzer.mk' ps fc).df.map (fun r => r.total_variable_cost)).sum ∧
    ∃ r, (FinancialAnalyzer.mk' ps fc).get_cost_volume_profit_analysis = some r ∧
      r.total_contribution = r.total_revenue - r.total_variable_cost := by
  have hsum : ((FinancialAnalyzer.mk' ps fc).df.map (fun r => r.total_contribution)).sum =
      ((FinancialAnalyzer.mk' ps fc).df.map (fun r => r.total_revenue)).sum -
      ((FinancialAnalyzer.mk' ps fc).df.map (fun r => r.total_variable_cost)).sum := by
    rw [mk'_df, df_sum_total_contribution, df_sum_total_revenue,
      df_sum_total_variable_cost]
    exact totalContributionOf_eq_sub ps
  refine ⟨hsum, cvpCore (FinancialAnalyzer.mk' ps fc), ?_, ?_⟩
  · unfold FinancialAnalyzer.get_cost_volume_profit_analysis
    rw [mk'_df_isEmpty_eq_false ps fc hne]
    rfl
  · simpa [cvpCore] using hsum

/-- Closed witness for `contribution_sum_identity` at a concrete two-product
portfolio. -/
theorem contribution_sum_identity_witness :
    ([{ name := "café", price := 9/2, cost := 6/5, quantity := 300 },
      { name := "pão", price := 6, cost := 2, quantity := 200 }] : List Product) ≠ [] ∧
    (((FinancialAnalyzer.mk'
        [{ name := "café", price := 9/2, cost := 6/5, quantity := 300 },
         { name := "pão", price := 6, cost := 2, quantity := 200 }] 1000).df.map
          (fun r => r.total_contribution)).sum =
      ((FinancialAnalyzer.mk'
        [{ name := "café", price := 9/2, cost := 6/5, quantity := 300 },
         { name := "pão", price := 6, cost := 2, quantity := 200 }] 1000).df.map
          (fun r => r.total_revenue)).sum -
      ((FinancialAnalyzer.mk'
        [{ name := "café", price := 9/2, cost := 6/5, quantity := 300 },
         { name := "pão", price := 6, cost := 2, quantity := 200 }] 1000).df.map
          (fun r => r.total_variable_cost)).sum ∧
     ∃ r, (FinancialAnalyzer.mk'
        [{ name := "café", price := 9/2, cost := 6/5, quantity := 300 },
         { name := "pão", price := 6, cost := 2, quantity := 200 }] 1000).get_cost_volume_profit_analysis = some r ∧
       r.total_contribution = r.total_revenue - r.total_variable_cost) :=
  ⟨by decide, contribution_sum_identity _ 1000 (by decide)⟩

/-- C1: for a non-empty product list (with the data model's non-negative
quantities), `calculate_breakeven_analysis` computes `breakeven_units` as
`fixed_costs` divided by the weighted average contribution margin
(total contribution / total quantity) when that margin is strictly positive
and `0` otherwise, and `breakeven_revenue` as exactly `breakeven_units`
times the weighted average price (total revenue / total quantity; the `ℚ`
convention `x / 0 = 0` coincides with the source's zero-quantity guard). -/
theorem breakeven_formula_correct (ps : List Product) (fc : ℚ)
    (hne : ps ≠ []) (hq : ∀ p ∈ ps, 0 ≤ p.quantity) :
    ∃ r, (FinancialAnalyzer.mk' ps fc).calculate_breakeven_analysis = some r ∧
      r.breakeven_units =
        (if 0 < totalContributionOf ps / totalQuantityOf ps then
          fc / (totalContributionOf ps / totalQuantityOf ps)
        else 0) ∧
      r.breakeven_revenue =
        r.breakeven_units * (totalRevenueOf ps / totalQuantityOf ps) := by
  refine ⟨breakevenCore (FinancialAnalyzer.mk' ps fc), ?_, ?_, ?_⟩
  · unfold FinancialAnalyzer.calculate_breakeven_analysis
    rw [mk'_df_isEmpty_eq_false ps fc hne]
    rfl
  · simp only [breakevenCore, mk'_df, mk'_fixed_costs, df_sum_total_contribution,
      df_sum_quantity, df_sum_total_revenue]
    rcases lt_or_eq_of_le (totalQuantityOf_nonneg ps hq) with hlt | heq
    · simp only [if_pos hlt]
    · simp only [← heq, lt_irrefl, if_false, div_zero]
  · simp only [breakevenCore, mk'_df, mk'_fixed_costs, df_sum_total_contribution,
      df_sum_quantity, df_sum_total_revenue]
    rcases lt_or_eq_of_le (totalQuantityOf_nonneg ps hq) with hlt | heq
    · simp only [if_pos hlt]
    · simp only [← heq, lt_irrefl, if_false, div_zero, mul_zero]

/-- Closed witness for `breakeven_formula_correct`: single product,
`price 10`, `cost 5`, `quantity 100`, `fixed_costs 400` (spec scenario 2:
weighted margin 5, break-even 80 units, 800 revenue). -/
theorem breakeven_formula_correct_witness :
    (([{ name := "p", price := 10, cost := 5, quantity := 100 }] : List Product) ≠ [] ∧
      ∀ p ∈ ([{ name := "p", price := 10, cost := 5, quantity := 100 }] : List Product),
        0 ≤ p.quantity) ∧
    ∃ r, (FinancialAnalyzer.mk'
        [{ name := "p", price := 10, cost := 5, quantity := 100 }] 400).calculate_breakeven_analysis = some r ∧
      r.breakeven_units =
        (if 0 < totalContributionOf [{ name := "p", price := 10, cost := 5, quantity := 100 }] /
            totalQuantityOf [{ name := "p", price := 10, cost := 5, quantity := 100 }] then
          400 / (totalContributionOf [{ name := "p", price := 10, cost := 5, quantity := 100 }] /
            totalQuantityOf [{ name := "p", price := 10, cost := 5, quantity := 100 }])
        else 0) ∧
      r.breakeven_revenue =
        r.breakeven_units * (totalRevenueOf [{ name := "p", price := 10, cost := 5, quantity := 100 }] /
          totalQuantityOf [{ name := "p", price := 10, cost := 5, quantity := 100 }]) :=
  ⟨⟨by decide, by decide⟩,
    breakeven_formula_correct _ 400 (by decide) (by decide)⟩

/-- C3: for a non-empty product list, `calculate_operating_leverage` returns
the `float('inf')` sentinel exactly when the total contribution
`Σ (price - cost) * quantity` equals `fixed_costs`; otherwise it returns
total contribution divided by (total contribution minus fixed costs). -/
theorem operating_leverage_formula (ps : List Product) (fc : ℚ) (hne : ps ≠ []) :
    ((FinancialAnalyzer.mk' ps fc).calculate_operating_leverage = PyF.pinf ↔
      totalContributionOf ps = fc) ∧
    (totalContributionOf ps ≠ fc →
      (FinancialAnalyzer.mk' ps fc).calculate_operating_leverage =
        PyF.fin (totalContributionOf ps / (totalContributionOf ps - fc))) := by
  unfold FinancialAnalyzer.calculate_operating_leverage
  rw [mk'_df_isEmpty_eq_false ps fc hne]
  simp only [Bool.false_eq_true, if_false, mk'_df, mk'_fixed_costs,
    df_sum_total_contribution]
  constructor
  · constructor
    · intro h
      by_contra hne2
      rw [if_neg (fun h0 => hne2 (by linarith [sub_eq_zero.mp h0]))] at h
      exact PyF.noConfusion h
    · intro h
      rw [if_pos (by rw [h, sub_self])]
  · intro h
    rw [if_neg (fun h0 => h (by linarith [sub_eq_zero.mp h0]))]

/-- Closed witness for `operating_leverage_formula`: spec scenario 1
(contribution 1790, fixed costs 1000, leverage 1790/790). -/
theorem operating_leverage_formula_witness :
    (([{ name := "café", price := 9/2, cost := 6/5, quantity := 300 },
       { name := "pão", price := 6, cost := 2, quantity := 200 }] : List Product) ≠ []) ∧
    (((FinancialAnalyzer.mk'
        [{ name := "café", price := 9/2, cost := 6/5, quantity := 300 },
         { name := "pão", price := 6, cost := 2, quantity := 200 }] 1000).calculate_operating_leverage = PyF.pinf ↔
      totalContributionOf
        [{ name := "café", price := 9/2, cost := 6/5, quantity := 300 },
         { name := "pão", price := 6, cost := 2, quantity := 200 }] = 1000) ∧
     (totalContributionOf
        [{ name := "café", price := 9/2, cost := 6/5, quantity := 300 },
         { name := "pão", price := 6, cost := 2, quantity := 200 }] ≠ 1000 →
      (FinancialAnalyzer.mk'
        [{ name := "café", price := 9/2, cost := 6/5, quantity := 300 },
         { name := "pão", price := 6, cost := 2, quantity := 200 }] 1000).calculate_operating_leverage =
        PyF.fin (totalContributionOf
          [{ name := "café", price := 9/2, cost := 6/5, quantity := 300 },
           { name := "pão", price := 6, cost := 2, quantity := 200 }] /
          (totalContributionOf
            [{ name := "café", price := 9/2, cost := 6/5, quantity := 300 },
             { name := "pão", price := 6, cost := 2, quantity := 200 }] - 1000)))) :=
  ⟨by decide, operating_leverage_formula _ 1000 (by decide)⟩

/-- C4: `simulate_price_changes` threads the analyzer state through
unchanged (the source writes only to the copied frame `df_sim` and to the
fresh analyzer built from it), so `get_cost_volume_profit_analysis` on the
original analyzer is identical before and after the simulation call, for
every analyzer, product name and new price. -/
theorem simulate_price_changes_frame (a : FinancialAnalyzer)
    (product_name : String) (new_price : ℚ) :
    ((a.simulate_price_changes product_name new_price).1).get_cost_volume_profit_analysis =
      a.get_cost_volume_profit_analysis := by
  have h : (a.simulate_price_changes product_name new_price).1 = a := by
    unfold FinancialAnalyzer.simulate_price_changes
    split
    · rfl
    · split
      · rfl
      · rfl
  rw [h]

/-- C2 counterexample: for the product `price 0, cost 5`, the derived
`contribution_margin_percent` is `-inf`, not `0`: `fillna(0)` replaces only
the `NaN` produced by `0/0`, while `-5/0` yields `-inf`, which `fillna`
leaves in place.  This refutes the claim that the percent is `0` for every
zero-price product regardless of cost. -/
theorem percent_zero_price_counterexample :
    ((FinancialAnalyzer.mk' [{ name := "X", price := 0, cost := 5, quantity := 10 }] 0).df.map
      (fun r => r.contribution_margin_percent)) = [PyF.ninf] ∧
    PyF.ninf ≠ PyF.fin 0 := by
  constructor
  · norm_num [FinancialAnalyzer.mk', deriveRow, qdivF, PyF.mul100, PyF.fillna0]
  · decide

/-- C2 amended: for a zero-price product the derived
`contribution_margin_percent` is `0` only when the cost is also `0`
(the `0/0` NaN filled by `fillna(0)`); a positive cost yields `-inf` and a
negative cost yields `+inf`. -/
theorem percent_zero_price (p : Product) (hp : p.price = 0) :
    (deriveRow p).contribution_margin_percent =
      (if 0 < p.cost then PyF.ninf
       else if p.cost < 0 then PyF.pinf
       else PyF.fin 0) := by
  simp only [deriveRow, hp, qdivF, zero_sub]
  split_ifs <;> first | rfl | (exfalso; linarith)

/-- Closed witness for `percent_zero_price` at `price 0, cost 5`. -/
theorem percent_zero_price_witness :
    ({ name := "X", price := 0, cost := 5, quantity := 10 } : Product).price = 0 ∧
    (deriveRow { name := "X", price := 0, cost := 5, quantity := 10 }).contribution_margin_percent =
      (if 0 < ({ name := "X", price := 0, cost := 5, quantity := 10 } : Product).cost then PyF.ninf
       else if ({ name := "X", price := 0, cost := 5, quantity := 10 } : Product).cost < 0 then PyF.pinf
       else PyF.fin 0) :=
  ⟨rfl, percent_zero_price _ rfl⟩

/-- The input-validity rule stated by the SPEC (§4.1): construction is
supposed to fail on a negative `fixed_costs` or any negative product field.
This is the spec-side definition, for comparison with the source's
constructor, which performs no validation at all. -/
def specRejectsInput (ps : List Product) (fc : ℚ) : Prop :=
  fc < 0 ∨ ∃ p ∈ ps, p.price < 0 ∨ p.cost < 0 ∨ p.quantity < 0

instance (ps : List Product) (fc : ℚ) : Decidable (specRejectsInput ps fc) := by
  unfold specRejectsInput
  infer_instance

/-- C8 counterexample: constructing an analyzer with `fixed_costs = -5` and
a product whose price, cost and quantity are all `-1` succeeds silently —
the state is populated and queries compute normally (operating leverage
evaluates to `0`).  The source constructor has no validation and cannot
fail, refuting the claim that construction fails on such input. -/
theorem construction_no_validation_counterexample :
    (FinancialAnalyzer.mk' [{ name := "X", price := -1, cost := -1, quantity := -1 }] (-5)).fixed_costs = -5 ∧
    (FinancialAnalyzer.mk' [{ name := "X", price := -1, cost := -1, quantity := -1 }] (-5)).calculate_operating_leverage = PyF.fin 0 := by
  constructor
  · rfl
  · norm_num [FinancialAnalyzer.calculate_operating_leverage, FinancialAnalyzer.mk',
      deriveRow]

/-- C8 amended: analyzer construction never fails; even on inputs the spec
labels invalid (negative fixed costs or negative product fields) it stores
the fixed costs unchanged and derives a full metric row per product, and
queries operate on all rows. -/
theorem construction_no_validation (ps : List Product) (fc : ℚ)
    (h : specRejectsInput ps fc) :
    (FinancialAnalyzer.mk' ps fc).fixed_costs = fc ∧
    (FinancialAnalyzer.mk' ps fc).df = ps.map deriveRow ∧
    (FinancialAnalyzer.mk' ps fc).get_contribution_margin_analysis.length = ps.length := by
  refine ⟨rfl, rfl, ?_⟩
  unfold FinancialAnalyzer.get_contribution_margin_analysis
  cases ps with
  | nil => rfl
  | cons p t =>
      rw [mk'_df_isEmpty_eq_false _ fc (by simp)]
      simp [mk'_df]

/-- Closed witness for `construction_no_validation` at a product with a
negative price and positive fixed costs. -/
theorem construction_no_validation_witness :
    specRejectsInput [{ name := "X", price := -1, cost := 2, quantity := 3 }] 10 ∧
    ((FinancialAnalyzer.mk' [{ name := "X", price := -1, cost := 2, quantity := 3 }] 10).fixed_costs = 10 ∧
     (FinancialAnalyzer.mk' [{ name := "X", price := -1, cost := 2, quantity := 3 }] 10).df =
       [{ name := "X", price := -1, cost := 2, quantity := 3 }].map deriveRow ∧
     (FinancialAnalyzer.mk' [{ name := "X", price := -1, cost := 2, quantity := 3 }] 10).get_contribution_margin_analysis.length = 1) :=
  ⟨by decide, construction_no_validation _ 10 (by decide)⟩

/-- C9 counterexample: on the empty analyzer `calculate_operating_leverage`
returns the scalar `0` (`return 0`, line 108) — a number, not an empty
table or empty mapping.  This refutes the claim that EVERY query operation
returns an explicitly-empty collection on the empty portfolio; the
remaining queries do (see `empty_analyzer_queries`). -/
theorem empty_analyzer_leverage_counterexample :
    (FinancialAnalyzer.mk' [] 5).calculate_operating_leverage = PyF.fin 0 := rfl

/-- C9 amended: construction over the empty product sequence succeeds, no
query raises, and every collection-valued query returns its explicit empty
result (`[]` / `{}` modelled as `none` / the `empty` constructor), while the
scalar-valued `calculate_operating_leverage` returns the number `0`, and
`simulate_price_changes` leaves the state unchanged and returns `{}`. -/
theorem empty_analyzer_queries (fc : ℚ) (names : List String) (d : ℚ)
    (nm : String) (np : ℚ) :
    (FinancialAnalyzer.mk' [] fc).get_contribution_margin_analysis = [] ∧
    (FinancialAnalyzer.mk' [] fc).calculate_breakeven_analysis = none ∧
    (FinancialAnalyzer.mk' [] fc).calculate_operating_leverage = PyF.fin 0 ∧
    (FinancialAnalyzer.mk' [] fc).get_cost_volume_profit_analysis = none ∧
    (FinancialAnalyzer.mk' [] fc).analyze_product_mix_optimization = none ∧
    (FinancialAnalyzer.mk' [] fc).calculate_combo_analysis names d = ComboResult.empty ∧
    (FinancialAnalyzer.mk' [] fc).simulate_price_changes nm np =
      (FinancialAnalyzer.mk' [] fc, SimResult.empty) :=
  ⟨rfl, rfl, rfl, rfl, rfl, rfl, rfl⟩

lemma filter_map_deriveRow (ps : List Product) (pred : String → Bool) :
    (ps.map deriveRow).filter (fun r => pred r.name) =
      (ps.filter (fun p => pred p.name)).map deriveRow := by
  induction ps with
  | nil => rfl
  | cons p t ih =>
      simp only [List.map_cons, List.filter_cons]
      cases h : pred p.name with
      | true => simp [deriveRow, h, ih]
      | false => simp [deriveRow, h, ih]

lemma filter_sum_price (ps : List Product) (pred : String → Bool) :
    (((ps.filter (fun p => pred p.name)).map deriveRow).map (fun r => r.price)).sum =
      ((ps.filter (fun p => pred p.name)).map (fun p => p.price)).sum := by
  rw [List.map_map]; rfl

lemma filter_sum_cost (ps : List Product) (pred : String → Bool) :
    (((ps.filter (fun p => pred p.name)).map deriveRow).map (fun r => r.cost)).sum =
      ((ps.filter (fun p => pred p.name)).map (fun p => p.cost)).sum := by
  rw [List.map_map]; rfl

lemma isEmpty_map_filter (ps : List Product) (pred : String → Bool) :
    ((ps.filter (fun p => pred p.name)).map deriveRow).isEmpty = true ↔
      ps.filter (fun p => pred p.name) = [] := by
  cases h : ps.filter (fun p => pred p.name) <;> simp

/-- C10: with a non-empty product table, `calculate_combo_analysis` returns
its not-found error exactly when no requested name matches any product; as
soon as one name matches it succeeds, the computed figures range over the
matched rows only (unmatched names silently ignored), and the `products`
field echoes the full requested list, unmatched names included. -/
theorem combo_partial_match (ps : List Product) (fc : ℚ)
    (names : List String) (d : ℚ) (hne : ps ≠ []) :
    ((FinancialAnalyzer.mk' ps fc).calculate_combo_analysis names d = ComboResult.notFound ↔
      ps.filter (fun p => names.contains p.name) = []) ∧
    (ps.filter (fun p => names.contains p.name) ≠ [] →
      ∃ out, (FinancialAnalyzer.mk' ps fc).calculate_combo_analysis names d = ComboResult.ok out ∧
        out.products = names ∧
        out.original_price =
          ((ps.filter (fun p => names.contains p.name)).map (fun p => p.price)).sum ∧
        out.total_cost =
          ((ps.filter (fun p => names.contains p.name)).map (fun p => p.cost)).sum ∧
        out.discounted_price = out.original_price * (1 - d / 100)) := by
  unfold FinancialAnalyzer.calculate_combo_analysis
  rw [mk'_df_isEmpty_eq_false ps fc hne]
  simp only [Bool.false_eq_true, if_false, mk'_df, filter_map_deriveRow]
  constructor
  · constructor
    · intro h
      by_contra hm
      rw [if_neg (fun hc => hm ((isEmpty_map_filter ps _).mp hc))] at h
      exact ComboResult.noConfusion h
    · intro h
      rw [if_pos ((isEmpty_map_filter ps _).mpr h)]
  · intro hm
    rw [if_neg (fun hc => hm ((isEmpty_map_filter ps _).mp hc))]
    refine ⟨_, rfl, rfl, ?_, ?_, rfl⟩
    · exact filter_sum_price ps _
    · exact filter_sum_cost ps _

/-- Closed witness for `combo_partial_match`: one matched name (`"A"`) and
one unmatched name (`"Z"`). -/
theorem combo_partial_match_witness :
    (([{ name := "A", price := 10, cost := 4, quantity := 7 }] : List Product) ≠ []) ∧
    (((FinancialAnalyzer.mk' [{ name := "A", price := 10, cost := 4, quantity := 7 }] 0).calculate_combo_analysis ["A", "Z"] 0 = ComboResult.notFound ↔
      ([{ name := "A", price := 10, cost := 4, quantity := 7 }] : List Product).filter
        (fun p => (["A", "Z"] : List String).contains p.name) = []) ∧
     (([{ name := "A", price := 10, cost := 4, quantity := 7 }] : List Product).filter
        (fun p => (["A", "Z"] : List String).contains p.name) ≠ [] →
      ∃ out, (FinancialAnalyzer.mk' [{ name := "A", price := 10, cost := 4, quantity := 7 }] 0).calculate_combo_analysis ["A", "Z"] 0 = ComboResult.ok out ∧
        out.products = ["A", "Z"] ∧
        out.original_price =
          ((([{ name := "A", price := 10, cost := 4, quantity := 7 }] : List Product).filter
            (fun p => (["A", "Z"] : List String).contains p.name)).map (fun p => p.price)).sum ∧
        out.total_cost =
          ((([{ name := "A", price := 10, cost := 4, quantity := 7 }] : List Product).filter
            (fun p => (["A", "Z"] : List String).contains p.name)).map (fun p => p.cost)).sum ∧
        out.discounted_price = out.original_price * (1 - (0:ℚ) / 100))) :=
  ⟨by decide, combo_partial_match _ 0 ["A", "Z"] 0 (by decide)⟩

/-- C6: with a non-empty table, a selection matching at least one product,
a discount in `[0, 100]`, and the data model's non-negative prices,
`calculate_combo_analysis` computes `combo_margin_percent` as
`(discounted - cost) / discounted * 100` with `0` when the discounted price
is `0` (the source's `> 0` guard coincides with the `= 0` case because the
discounted price cannot be negative under these hypotheses), and classifies
viability as `"Viável"` above 15, `"Revisar"` in `(5, 15]`, and
`"Não recomendado"` at or below 5 (the source's labels for the claim's
Viable / Review / NotRecommended). -/
theorem combo_margin_and_viability (ps : List Product) (fc : ℚ)
    (names : List String) (d : ℚ) (hne : ps ≠ [])
    (hp : ∀ p ∈ ps, 0 ≤ p.price) (hd0 : 0 ≤ d) (hd1 : d ≤ 100)
    (hm : ps.filter (fun p => names.contains p.name) ≠ []) :
    ∃ out, (FinancialAnalyzer.mk' ps fc).calculate_combo_analysis names d = ComboResult.ok out ∧
      out.combo_margin_percent =
        (if out.discounted_price = 0 then 0
         else (out.discounted_price - out.total_cost) / out.discounted_price * 100) ∧
      (15 < out.combo_margin_percent → out.viability = "Viável") ∧
      (5 < out.combo_margin_percent ∧ out.combo_margin_percent ≤ 15 →
        out.viability = "Revisar") ∧
      (out.combo_margin_percent ≤ 5 → out.viability = "Não recomendado") := by
  have hop : 0 ≤ (((ps.filter (fun p => names.contains p.name)).map deriveRow).map
      (fun r => r.price)).sum := by
    rw [filter_sum_price]
    apply List.sum_nonneg
    intro x hx
    rcases List.mem_map.mp hx with ⟨p, hp2, rfl⟩
    exact hp p (List.mem_of_mem_filter hp2)
  have hfac : 0 ≤ 1 - d / 100 := by
    have h1 : d / 100 ≤ 1 := by
      rw [div_le_one (by norm_num : (0:ℚ) < 100)]
      linarith
    linarith
  have hdp : 0 ≤ (((ps.filter (fun p => names.contains p.name)).map deriveRow).map
      (fun r => r.price)).sum * (1 - d / 100) := mul_nonneg hop hfac
  unfold FinancialAnalyzer.calculate_combo_analysis
  rw [mk'_df_isEmpty_eq_false ps fc hne]
  simp only [Bool.false_eq_true, if_false, mk'_df, filter_map_deriveRow]
  rw [if_neg (fun hc => hm ((isEmpty_map_filter ps _).mp hc))]
  refine ⟨_, rfl, ?_, ?_, ?_, ?_⟩
  · dsimp only
    rcases lt_or_eq_of_le hdp with hlt | heq
    · rw [if_pos hlt, if_neg (ne_of_gt hlt)]
    · rw [← heq]
      norm_num
  · dsimp only
    intro h
    rw [if_pos h]
  · dsimp only
    rintro ⟨h1, h2⟩
    rw [if_neg (by linarith), if_pos h1]
  · dsimp only
    intro h
    rw [if_neg (by linarith), if_neg (by linarith)]

/-- Closed witness for `combo_margin_and_viability`: spec scenario 3 — two
products with prices summing to 20 and costs summing to 10, no discount. -/
theorem combo_margin_and_viability_witness :
    (([{ name := "A", price := 12, cost := 4, quantity := 1 },
       { name := "B", price := 8, cost := 6, quantity := 1 }] : List Product) ≠ [] ∧
     (∀ p ∈ ([{ name := "A", price := 12, cost := 4, quantity := 1 },
              { name := "B", price := 8, cost := 6, quantity := 1 }] : List Product),
        0 ≤ p.price) ∧
     (0:ℚ) ≤ 0 ∧ (0:ℚ) ≤ 100 ∧
     ([{ name := "A", price := 12, cost := 4, quantity := 1 },
       { name := "B", price := 8, cost := 6, quantity := 1 }] : List Product).filter
        (fun p => (["A", "B"] : List String).contains p.name) ≠ []) ∧
    ∃ out, (FinancialAnalyzer.mk'
        [{ name := "A", price := 12, cost := 4, quantity := 1 },
         { name := "B", price := 8, cost := 6, quantity := 1 }] 0).calculate_combo_analysis ["A", "B"] 0 = ComboResult.ok out ∧
      out.combo_margin_percent =
        (if out.discounted_price = 0 then 0
         else (out.discounted_price - out.total_cost) / out.discounted_price * 100) ∧
      (15 < out.combo_margin_percent → out.viability = "Viável") ∧
      (5 < out.combo_margin_percent ∧ out.combo_margin_percent ≤ 15 →
        out.viability = "Revisar") ∧
      (out.combo_margin_percent ≤ 5 → out.viability = "Não recomendado") :=
  ⟨⟨by decide, by decide, by decide, by decide, by decide⟩,
    combo_margin_and_viability _ 0 ["A", "B"] 0 (by decide) (by decide)
      (by decide) (by decide) (by decide)⟩

lemma PyF.ltB_irrefl (a : PyF) : a.ltB a = false := by
  cases a <;> simp [PyF.ltB]

lemma PyF.leB_refl (a : PyF) : a.leB a = true := by
  simp [PyF.leB]

lemma PyF.ltB_trans {a b c : PyF} (h1 : a.ltB b = true) (h2 : b.ltB c = true) :
    a.ltB c = true := by
  cases a <;> cases b <;> cases c <;>
    simp_all [PyF.ltB] <;> linarith

lemma PyF.ltB_leB_trans {a b c : PyF} (h1 : a.ltB b = true) (h2 : b.leB c = true) :
    a.ltB c = true := by
  unfold PyF.leB at h2
  rcases Bool.or_eq_true_iff.mp h2 with h | h
  · exact PyF.ltB_trans h1 h
  · have hbc : b = c := of_decide_eq_true h
    rw [← hbc]
    exact h1

lemma PyF.leB_of_ltB {a b : PyF} (h : a.ltB b = true) : a.leB b = true := by
  simp [PyF.leB, h]

lemma PyF.pair_count (a b : PyF) (ha : a ≠ PyF.nan) (hb : b ≠ PyF.nan) :
    ((if a.ltB b then 1 else 0) + (if a.leB b then 1 else 0)) +
      ((if b.ltB a then 1 else 0) + (if b.leB a then 1 else 0)) = 2 := by
  cases a <;> cases b <;> simp_all [PyF.ltB, PyF.leB]
  rename_i qa qb
  rcases lt_trichotomy qa qb with h | h | h
  · simp [h, lt_asymm h, ne_of_lt h, (ne_of_lt h).symm]
  · simp [h, lt_irrefl]
  · simp [h, lt_asymm h, ne_of_lt h, (ne_of_lt h).symm]

lemma countP_le_of_imp {α : Type} (p q : α → Bool) (l : List α)
    (h : ∀ a ∈ l, p a = true → q a = true) : l.countP p ≤ l.countP q := by
  induction l with
  | nil => exact Nat.le_refl 0
  | cons x t ih =>
      simp only [List.countP_cons]
      have h1 : t.countP p ≤ t.countP q :=
        ih (fun a ha => h a (List.mem_cons_of_mem x ha))
      have h2 : (if p x then 1 else 0) ≤ (if q x then 1 else 0) := by
        by_cases hp : p x = true
        · rw [if_pos hp, if_pos (h x (List.mem_cons_self x t) hp)]
        · simp [hp]
      omega

lemma countP_lt_of_imp {α : Type} (p q : α → Bool) (l : List α)
    (h : ∀ a ∈ l, p a = true → q a = true) (x : α) (hx : x ∈ l)
    (hpx : p x = false) (hqx : q x = true) : l.countP p < l.countP q := by
  induction l with
  | nil => exact absurd hx (List.not_mem_nil x)
  | cons y t ih =>
      simp only [List.countP_cons]
      rcases List.mem_cons.mp hx with rfl | hxt
      · have h1 : t.countP p ≤ t.countP q :=
          countP_le_of_imp p q t (fun a ha => h a (List.mem_cons_of_mem x ha))
        rw [hpx, hqx]
        simp only [Bool.false_eq_true, if_false, if_true]
        omega
      · have h1 : t.countP p < t.countP q :=
          ih (fun a ha hpa => h a (List.mem_cons_of_mem y ha) hpa) hxt
        have h2 : (if p y then 1 else 0) ≤ (if q y then 1 else 0) := by
          by_cases hp : p y = true
          · rw [if_pos hp, if_pos (h y (List.mem_cons_self y t) hp)]
          · simp [hp]
        omega

lemma countP_as_sum {α : Type} (p : α → Bool) (l : List α) :
    l.countP p = (l.map (fun a => if p a then 1 else 0)).sum := by
  induction l with
  | nil => rfl
  | cons x t ih =>
      simp only [List.countP_cons, List.map_cons, List.sum_cons, ih]
      omega

lemma sum_map_add_nat {α : Type} (f g : α → ℕ) (l : List α) :
    (l.map (fun x => f x + g x)).sum = (l.map f).sum + (l.map g).sum := by
  induction l with
  | nil => rfl
  | cons x t ih =>
      simp only [List.map_cons, List.sum_cons, ih]
      omega

lemma sum_map_const_of {α : Type} (f : α → ℕ) (l : List α) (c : ℕ)
    (h : ∀ a ∈ l, f a = c) : (l.map f).sum = c * l.length := by
  induction l with
  | nil => rfl
  | cons x t ih =>
      simp only [List.map_cons, List.sum_cons, List.length_cons,
        h x (List.mem_cons_self x t),
        ih (fun a ha => h a (List.mem_cons_of_mem x ha))]
      ring

lemma cntGT_cons (v x : PyF) (xs : List PyF) :
    cntGT v (x :: xs) = cntGT v xs + (if v.ltB x then 1 else 0) := by
  simp [cntGT, List.countP_cons]

lemma cntGE_cons (v x : PyF) (xs : List PyF) :
    cntGE v (x :: xs) = cntGE v xs + (if v.leB x then 1 else 0) := by
  simp [cntGE, List.countP_cons]

lemma cnt_pair_as_sum (x : PyF) (xs : List PyF) :
    cntGT x xs + cntGE x xs =
      (xs.map (fun v => (if x.ltB v then 1 else 0) + (if x.leB v then 1 else 0))).sum := by
  rw [sum_map_add_nat, cntGT, cntGE, countP_as_sum, countP_as_sum]

lemma sum_cntGT_cntGE (vs : List PyF) (hnn : ∀ v ∈ vs, v ≠ PyF.nan) :
    (vs.map (fun v => cntGT v vs + cntGE v vs)).sum = vs.length * vs.length := by
  induction vs with
  | nil => rfl
  | cons x xs ih =>
      simp only [List.map_cons, List.sum_cons, cntGT_cons, cntGE_cons,
        PyF.ltB_irrefl, PyF.leB_refl, Bool.false_eq_true, if_false, if_true]
      have hx : x ≠ PyF.nan := hnn x (List.mem_cons_self x xs)
      have hxs : ∀ v ∈ xs, v ≠ PyF.nan :=
        fun v hv => hnn v (List.mem_cons_of_mem x hv)
      have hsplit : (xs.map (fun v =>
          cntGT v xs + (if v.ltB x then 1 else 0) +
            (cntGE v xs + (if v.leB x then 1 else 0)))).sum =
          (xs.map (fun v => cntGT v xs + cntGE v xs)).sum +
            (xs.map (fun v => (if v.ltB x then 1 else 0) + (if v.leB x then 1 else 0))).sum := by
        rw [← sum_map_add_nat]
        have hpt : ∀ v : PyF,
            cntGT v xs + (if v.ltB x then 1 else 0) +
              (cntGE v xs + (if v.leB x then 1 else 0)) =
            cntGT v xs + cntGE v xs +
              ((if v.ltB x then 1 else 0) + (if v.leB x then 1 else 0)) := by
          intro v; omega
        simp only [hpt]
      rw [hsplit, ih hxs]
      have hpairs : (xs.map (fun v =>
            (if x.ltB v then 1 else 0) + (if x.leB v then 1 else 0))).sum +
          (xs.map (fun v => (if v.ltB x then 1 else 0) + (if v.leB x then 1 else 0))).sum =
          2 * xs.length := by
        rw [← sum_map_add_nat]
        exact sum_map_const_of _ xs 2 (fun v hv => PyF.pair_count x v hx (hxs v hv))
      have hcnt := cnt_pair_as_sum x xs
      have hring : (xs.length + 1) * (xs.length + 1) =
          xs.length * xs.length + 2 * xs.length + 1 := by ring
      simp only [List.length_cons, hring]
      omega

lemma sum_map_half (l : List PyF) (f : PyF → ℚ) :
    (l.map (fun v => f v / 2)).sum = (l.map f).sum / 2 := by
  induction l with
  | nil => simp
  | cons x t ih =>
      simp only [List.map_cons, List.sum_cons, ih]
      ring

lemma sum_rankOf (vs : List PyF) (hnn : ∀ v ∈ vs, v ≠ PyF.nan) :
    (vs.map (fun v => rankOf v vs)).sum =
      (vs.length : ℚ) * (vs.length + 1) / 2 := by
  have h1 : ∀ v : PyF, rankOf v vs =
      ((cntGT v vs + cntGE v vs + 1 : ℕ) : ℚ) / 2 := by
    intro v
    unfold rankOf
    push_cast
    ring
  simp only [h1]
  rw [sum_map_half]
  have h2 : (vs.map (fun v => ((cntGT v vs + cntGE v vs + 1 : ℕ) : ℚ))).sum =
      (((vs.map (fun v => cntGT v vs + cntGE v vs + 1)).sum : ℕ) : ℚ) := by
    rw [Nat.cast_list_sum, List.map_map]
    rfl
  rw [h2]
  have hone : (vs.map (fun _ : PyF => 1)).sum = vs.length := by
    rw [sum_map_const_of (fun _ => 1) vs 1 (fun a _ => rfl), one_mul]
  have h3 : (vs.map (fun v => cntGT v vs + cntGE v vs + 1)).sum =
      (vs.map (fun v => cntGT v vs + cntGE v vs)).sum + vs.length := by
    rw [sum_map_add_nat (fun v => cntGT v vs + cntGE v vs) (fun _ => 1) vs, hone]
  rw [h3, sum_cntGT_cntGE vs hnn]
  push_cast
  ring

lemma rankOf_lt_of_gt (vs : List PyF) (v w : PyF) (hv : v ∈ vs)
    (h : w.ltB v = true) : rankOf v vs < rankOf w vs := by
  have h1 : cntGE v vs ≤ cntGT w vs :=
    countP_le_of_imp _ _ vs (fun u _ hle => PyF.ltB_leB_trans h hle)
  have h2 : cntGT v vs < cntGE w vs :=
    countP_lt_of_imp _ _ vs
      (fun u _ hlt => PyF.leB_of_ltB (PyF.ltB_trans h hlt))
      v hv (PyF.ltB_irrefl v) (PyF.leB_of_ltB h)
  have h3 : ((cntGT v vs + cntGE v vs : ℕ) : ℚ) <
      ((cntGT w vs + cntGE w vs : ℕ) : ℚ) :=
    Nat.cast_lt.mpr (by omega)
  unfold rankOf
  push_cast at h3 ⊢
  linarith

lemma deriveRow_percent_ne_nan (p : Product) :
    (deriveRow p).contribution_margin_percent ≠ PyF.nan := by
  simp only [deriveRow, qdivF]
  split_ifs <;> simp [PyF.mul100, PyF.fillna0]

/-- C7 counterexample: two products with the same 50% margin.  Pandas'
default `rank` method is `'average'`, so both rows receive the identical
fractional rank `3/2` — not the distinct integer ranks `1` and `2` that a
dense rank with stable input-order tie-breaking would assign (`3/2` is
neither `1` nor `2`, and the two tied rows do not get distinct ranks). -/
theorem contribution_rank_counterexample :
    ((FinancialAnalyzer.mk'
      [{ name := "A", price := 10, cost := 5, quantity := 1 },
       { name := "B", price := 10, cost := 5, quantity := 1 }] 0).get_contribution_margin_analysis.map
        (fun r => r.contribution_rank)) = [3/2, 3/2] ∧
    ((3:ℚ)/2 ≠ 1 ∧ (3:ℚ)/2 ≠ 2) := by
  refine ⟨?_, by norm_num, by norm_num⟩
  norm_num [FinancialAnalyzer.get_contribution_margin_analysis,
    FinancialAnalyzer.mk', deriveRow, qdivF, PyF.mul100, PyF.fillna0,
    rankOf, cntGT, cntGE, List.countP_cons, PyF.ltB, PyF.leB]

lemma analysis_rows (ps : List Product) (fc : ℚ) (hne : ps ≠ []) :
    (FinancialAnalyzer.mk' ps fc).get_contribution_margin_analysis =
      (ps.map deriveRow).map (fun r =>
        ({ toRow := r
           contribution_rank := rankOf r.contribution_margin_percent
             ((ps.map deriveRow).map (fun r2 => r2.contribution_margin_percent))
           revenue_participation := (qdivF r.total_revenue
             (((ps.map deriveRow).map (fun r2 => r2.total_revenue)).sum)).mul100
           contribution_participation := (qdivF r.total_contribution
             (((ps.map deriveRow).map (fun r2 => r2.total_contribution)).sum)).mul100 } : ARow)) := by
  unfold FinancialAnalyzer.get_contribution_margin_analysis
  rw [mk'_df_isEmpty_eq_false ps fc hne]
  rfl

lemma analysis_ranks (ps : List Product) (fc : ℚ) (hne : ps ≠ []) :
    (FinancialAnalyzer.mk' ps fc).get_contribution_margin_analysis.map
        (fun r => r.contribution_rank) =
      ((ps.map deriveRow).map (fun r2 => r2.contribution_margin_percent)).map
        (fun v => rankOf v
          ((ps.map deriveRow).map (fun r2 => r2.contribution_margin_percent))) := by
  rw [analysis_rows ps fc hne]
  simp only [List.map_map]
  rfl

lemma analysis_percents_ne_nan (ps : List Product) :
    ∀ v ∈ (ps.map deriveRow).map (fun r2 => r2.contribution_margin_percent),
      v ≠ PyF.nan := by
  intro v hv
  rw [List.map_map] at hv
  rcases List.mem_map.mp hv with ⟨p, _, rfl⟩
  exact deriveRow_percent_ne_nan p

/-- C7 amended: `contribution_rank` is pandas' default `'average'` rank of
`contribution_margin_percent` in descending order: each row's rank is the
mean of the first and last ordinal positions of its tie group, so rows with
equal percent share one (possibly fractional) rank, a strictly greater
percent yields a strictly smaller rank, and the ranks of `n` rows always
sum to `n(n+1)/2`.  (Not a dense rank, and ties are not broken by input
order.) -/
theorem contribution_rank_average_method (ps : List Product) (fc : ℚ)
    (hne : ps ≠ []) :
    ((FinancialAnalyzer.mk' ps fc).get_contribution_margin_analysis.length = ps.length) ∧
    (∀ r1 ∈ (FinancialAnalyzer.mk' ps fc).get_contribution_margin_analysis,
     ∀ r2 ∈ (FinancialAnalyzer.mk' ps fc).get_contribution_margin_analysis,
      r1.contribution_margin_percent = r2.contribution_margin_percent →
      r1.contribution_rank = r2.contribution_rank) ∧
    (∀ r1 ∈ (FinancialAnalyzer.mk' ps fc).get_contribution_margin_analysis,
     ∀ r2 ∈ (FinancialAnalyzer.mk' ps fc).get_contribution_margin_analysis,
      PyF.ltB r2.contribution_margin_percent r1.contribution_margin_percent = true →
      r1.contribution_rank < r2.contribution_rank) ∧
    (((FinancialAnalyzer.mk' ps fc).get_contribution_margin_analysis.map
        (fun r => r.contribution_rank)).sum =
      (ps.length : ℚ) * (ps.length + 1) / 2) := by
  refine ⟨?_, ?_, ?_, ?_⟩
  · rw [analysis_rows ps fc hne]
    simp [List.length_map]
  · intro r1 hr1 r2 hr2 hpc
    rw [analysis_rows ps fc hne] at hr1 hr2
    rcases List.mem_map.mp hr1 with ⟨row1, _, rfl⟩
    rcases List.mem_map.mp hr2 with ⟨row2, _, rfl⟩
    simp only at hpc ⊢
    rw [hpc]
  · intro r1 hr1 r2 hr2 hlt
    rw [analysis_rows ps fc hne] at hr1 hr2
    rcases List.mem_map.mp hr1 with ⟨row1, hrow1, rfl⟩
    rcases List.mem_map.mp hr2 with ⟨row2, _, rfl⟩
    simp only at hlt ⊢
    exact rankOf_lt_of_gt _ _ _ (List.mem_map_of_mem _ hrow1) hlt
  · rw [analysis_ranks ps fc hne, sum_rankOf _ (analysis_percents_ne_nan ps)]
    simp [List.length_map]

/-- Closed witness for `contribution_rank_average_method` over the
two-product tied portfolio of the counterexample. -/
theorem contribution_rank_average_method_witness :
    (([{ name := "A", price := 10, cost := 5, quantity := 1 },
       { name := "B", price := 10, cost := 5, quantity := 1 }] : List Product) ≠ []) ∧
    (((FinancialAnalyzer.mk'
        [{ name := "A", price := 10, cost := 5, quantity := 1 },
         { name := "B", price := 10, cost := 5, quantity := 1 }] 0).get_contribution_margin_analysis.map
        (fun r => r.contribution_rank)).sum =
      ((([{ name := "A", price := 10, cost := 5, quantity := 1 },
          { name := "B", price := 10, cost := 5, quantity := 1 }] : List Product).length : ℚ) *
        (([{ name := "A", price := 10, cost := 5, quantity := 1 },
           { name := "B", price := 10, cost := 5, quantity := 1 }] : List Product).length + 1) / 2)) :=
  ⟨by decide,
    (contribution_rank_average_method
      [{ name := "A", price := 10, cost := 5, quantity := 1 },
       { name := "B", price := 10, cost := 5, quantity := 1 }] 0 (by decide)).2.2.2⟩
